/-
Verification of the compilation-trace / type-feedback save-load subsystem
(runtime/vm/compilation_trace.h) and the ARM code-breakpoint patching
facility (runtime/vm/debugger_arm.cc) of the Dart SDK snapshot.

The repository ships the class declarations in compilation_trace.h together
with three inline member bodies (CompilationTraceSaver::StealBuffer,
TypeFeedbackSaver::WriteInt, TypeFeedbackLoader::ReadInt) and the full
bodies of CodeBreakpoint::{OrigStubAddress, PatchCode, RestoreCode}.
The remaining member bodies (Visit, CompileTrace, CompileTriple,
LoadFeedback, CheckHeader, LoadClasses, LoadFields, LoadFunction, ...)
are declared but their translation unit is not part of the snapshot, so
those operations are modelled from the specification; each such definition
carries a doc comment starting `Modelled from the spec:`.
-/
import Mathlib

namespace DartVM

/-! ## Compilation trace: data model

A CompilationTraceRecord is one textual record: library URI, class name
(or the top-level sentinel), function name. -/

/-- One record of the compilation trace: `library-uri class-name function-name`. -/
structure TraceRecord where
  uri : String
  cls : String
  func : String
deriving DecidableEq, Repr

/-- A trace line as it sits in the text buffer: a list of whitespace-separated
fields.  A well-formed line has exactly three fields. -/
abbrev TraceLine := List String

/-- Modelled from the spec: `CompilationTraceSaver::Visit` (body not in the
snapshot) appends one textual record — the owning library's URI, the owning
class's name, the function's simple name — to the internal buffer, with no
merging or deduplication. -/
def traceVisit (buf : List TraceLine) (r : TraceRecord) : List TraceLine :=
  buf ++ [[r.uri, r.cls, r.func]]

/-- The saver's accumulated buffer after visiting the given functions in
order, starting from the empty buffer of a fresh `CompilationTraceSaver`. -/
def saveTrace (funcs : List TraceRecord) : List TraceLine :=
  funcs.foldl traceVisit []

/-- `CompilationTraceSaver::StealBuffer` (inline in compilation_trace.h):
sets `*buffer` to the accumulated text buffer and `*buffer_length` to its
length.  Modelled as returning the (buffer, length) pair. -/
def stealBuffer (buf : List TraceLine) : List TraceLine × Nat :=
  (buf, buf.length)

/-! ## Compilation trace: loading

The current program, for the trace loader, answers two questions about a
(uri, class, function) triple: does it resolve, and if compiled, does
compilation succeed. -/

/-- The target program as the trace loader sees it: which symbolic triples
resolve, and whether compiling a resolved function succeeds. -/
structure TraceProgram where
  resolves : TraceRecord → Bool
  compileOk : TraceRecord → Bool

/-- Errors a trace load can surface. -/
inductive TraceErr where
  | formatError : TraceErr
  | compileError (r : TraceRecord) : TraceErr
deriving DecidableEq, Repr

/-- Modelled from the spec: `CompilationTraceLoader::CompileTriple` (body not
in the snapshot) resolves library → class → function by name; if resolution
succeeds it invokes the compile-function entry point (recording an error
object on compilation failure); if resolution fails the record is silently
skipped.  Returns (error-or-null, functions on which compilation was
triggered). -/
def compileTriple (p : TraceProgram) (r : TraceRecord) :
    Option TraceErr × List TraceRecord :=
  if p.resolves r then
    if p.compileOk r then (none, [r]) else (some (.compileError r), [r])
  else (none, [])

/-- Parse one line of the trace text: exactly three fields form a record,
any other field count is malformed. -/
def parseLine : TraceLine → Option TraceRecord
  | [u, c, f] => some ⟨u, c, f⟩
  | _ => none

/-- Modelled from the spec: the record-processing loop of
`CompilationTraceLoader::CompileTrace` (body not in the snapshot).  Parses
line by line; a malformed line (wrong field count) is a fatal format error
for the whole load; otherwise the triple is handed to `compileTriple`, the
first error encountered is retained, and processing continues. -/
def compileTraceAux (p : TraceProgram) :
    List TraceLine → Option TraceErr → List TraceRecord →
    Option TraceErr × List TraceRecord
  | [], err, acc => (err, acc)
  | line :: rest, err, acc =>
    match parseLine line with
    | some r =>
      compileTraceAux p rest (err.orElse fun _ => (compileTriple p r).1)
        (acc ++ (compileTriple p r).2)
    | none => (some .formatError, acc)

/-- Modelled from the spec: `CompilationTraceLoader::CompileTrace` (body not
in the snapshot).  Returns the first error encountered (or null on full
success) together with the list of functions whose compilation it
re-triggered, in replay order. -/
def compileTrace (p : TraceProgram) (lines : List TraceLine) :
    Option TraceErr × List TraceRecord :=
  compileTraceAux p lines none []

/-! ## The binary integer encoding (TypeFeedbackSaver::WriteInt /
TypeFeedbackLoader::ReadInt, inline in compilation_trace.h)

`WriteInt(intptr_t value)` performs `stream_->Write(static_cast<int32_t>(value))`
and `ReadInt` performs `return stream_->Read<int32_t>()`: the value is
truncated to 32 bits on write.  The `WriteStream::Write` / `ReadStream::Read`
bodies are not in the snapshot; modelled from the spec they move a
fixed-width 32-bit value with one consistent byte order (little-endian
chosen here). -/

/-- `static_cast<int32_t>` on a 64-bit `intptr_t`: reduce modulo 2^32 and
reinterpret as a signed 32-bit value. -/
def toInt32 (v : Int) : Int :=
  let m := v % 4294967296
  if m < 2147483648 then m else m - 4294967296

/-- The four little-endian bytes of `v` truncated to 32 bits; this is what
`WriteInt` appends to the stream. -/
def int32Bytes (v : Int) : List Nat :=
  let u := (v % 4294967296).toNat
  [u % 256, u / 256 % 256, u / 65536 % 256, u / 16777216 % 256]

/-- `TypeFeedbackSaver::WriteInt`: append the 32-bit truncation of `value`
to the stream. -/
def writeInt (stream : List Nat) (value : Int) : List Nat :=
  stream ++ int32Bytes value

/-- `TypeFeedbackLoader::ReadInt`: consume four bytes, reassemble the
32-bit value with the same byte order, reinterpret as signed.  `none`
models a truncated stream. -/
def readInt : List Nat → Option (Int × List Nat)
  | b0 :: b1 :: b2 :: b3 :: rest =>
    let u : Int := (b0 : Int) + 256 * b1 + 65536 * b2 + 16777216 * b3
    some (if u < 2147483648 then u else u - 4294967296, rest)
  | _ => none

/-- Modelled from the spec: `WriteString` writes a length prefix (via the
integer encoding) followed by the raw bytes. -/
def writeString (stream : List Nat) (s : List Nat) : List Nat :=
  writeInt stream (s.length : Int) ++ s

/-- Modelled from the spec: reading `n` raw bytes off the stream. -/
def readBytes : Nat → List Nat → Option (List Nat × List Nat)
  | 0, rest => some ([], rest)
  | _ + 1, [] => none
  | n + 1, b :: rest => (readBytes n rest).map fun p => (b :: p.1, p.2)

/-- Modelled from the spec: `ReadString` reads the length prefix with the
integer encoding, then that many raw bytes. -/
def readString (stream : List Nat) : Option (List Nat × List Nat) :=
  match readInt stream with
  | none => none
  | some (n, rest) => if n < 0 then none else readBytes n.toNat rest

/-! ## Type feedback: data model

The binary stream, parsed into its structured form (header version, class
table, field table, function feedback records).  Stream-local class ids are
the dense positions `[0, numClasses)` in the class table. -/

/-- A class-table entry: (library URI, class name).  Its stream-local id is
its index in the table. -/
structure ClassRec where
  uri : String
  name : String
deriving DecidableEq, Repr

/-- A field-table entry: stream-local owning class id and field name. -/
structure FieldRec where
  classId : Nat
  name : String
deriving DecidableEq, Repr

/-- One (stream-local class id, hit count) pair of a call-site histogram. -/
structure HistEntry where
  classId : Nat
  count : Int
deriving DecidableEq, Repr

/-- A call-site record: call kind, target name (may be empty), receiver
histogram in stream-local class ids. -/
structure CallSiteRec where
  callKind : Nat
  targetName : String
  entries : List HistEntry
deriving DecidableEq, Repr

/-- A function feedback record: owning class (stream-local id, negative
sentinel for top-level), kind discriminator, token position, name, and the
call sites of its compiled code. -/
structure FuncRec where
  classId : Int
  kind : Nat
  tokenPos : Int
  name : String
  callSites : List CallSiteRec
deriving DecidableEq, Repr

/-- A parsed type-feedback stream. -/
structure FeedbackStream where
  version : Int
  classes : List ClassRec
  fields : List FieldRec
  funcs : List FuncRec
deriving DecidableEq, Repr

/-- The current program as the feedback loader sees it, through the Symbolic
Resolver: class lookup by (uri, name) yielding the current class id, function
lookup by (owner, name, kind, token position), field lookup by (owner, name). -/
structure FeedbackProgram where
  resolveClass : String → String → Option Nat
  findFunction : Option Nat → String → Nat → Int → Bool
  hasField : Nat → String → Bool

/-- Errors a feedback load can surface. -/
inductive FeedbackErr where
  | badVersion : FeedbackErr
deriving DecidableEq, Repr

/-- Modelled from the spec: the loader's supported format version constant
(its value is not in the snapshot; any fixed value serves, only equality
with the stream's version field matters). -/
def kFeedbackVersion : Int := 1

/-- Modelled from the spec: `TypeFeedbackLoader::CheckHeader` (body not in
the snapshot) validates the version field; a mismatch is a fatal format
error returned immediately. -/
def checkHeader (s : FeedbackStream) : Option FeedbackErr :=
  if s.version = kFeedbackVersion then none else some .badVersion

/-- Modelled from the spec: `TypeFeedbackLoader::LoadClasses` (body not in
the snapshot) resolves each class-table entry by name and records the
mapping stream-local id → current class id, with `none` (\"unresolved\") for
names that no longer exist.  The stream-local id is the table index. -/
def loadClasses (p : FeedbackProgram) (classes : List ClassRec) :
    List (Option Nat) :=
  classes.map fun c => p.resolveClass c.uri c.name

/-- Translate one stream-local class id through the table; out-of-range ids
behave as unresolved. -/
def translateCid (cidMap : List (Option Nat)) (cid : Nat) : Option Nat :=
  cidMap.getD cid none

/-- Translate a call-site histogram: each entry's class id goes through the
table, entries whose id is unresolved are dropped, counts are kept. -/
def translateEntries (cidMap : List (Option Nat)) (entries : List HistEntry) :
    List (Nat × Int) :=
  entries.filterMap fun e => (translateCid cidMap e.classId).map fun c => (c, e.count)

/-- Modelled from the spec: `TypeFeedbackLoader::LoadFields` (body not in
the snapshot) resolves each field entry against its translated owning class
and applies the type-guard information; an unresolved owning class or a
missing field skips that entry.  Returns the (current class id, field name)
pairs whose guards were applied. -/
def loadFields (p : FeedbackProgram) (cidMap : List (Option Nat))
    (fields : List FieldRec) : List (Nat × String) :=
  fields.filterMap fun fr =>
    match translateCid cidMap fr.classId with
    | some c => if p.hasField c fr.name then some (c, fr.name) else none
    | none => none

/-- Resolve a function record's owning class: a negative stream id is the
top-level sentinel (owner `none`); otherwise the id goes through the
translation table and an unresolved entry means the owner is gone. -/
def resolveOwner (cidMap : List (Option Nat)) (cid : Int) :
    Option (Option Nat) :=
  if cid < 0 then some none
  else (translateCid cidMap cid.toNat).map some

/-- Whether a function feedback record resolves in the current program:
owner resolved, then `FindFunction` by (owner, name, kind, token position). -/
def funcResolves (p : FeedbackProgram) (cidMap : List (Option Nat))
    (f : FuncRec) : Bool :=
  match resolveOwner cidMap f.classId with
  | some owner => p.findFunction owner f.name f.kind f.tokenPos
  | none => false

/-- What one `LoadFunction` call (modelled from the spec) adds to the state:
a resolved record replays each call site into a fresh inline cache with the
histogram translated through the table; an unresolved record is appended to
the deferred functions-to-compile list and none of its call-site data is
applied. -/
def loadFunctionStep (p : FeedbackProgram) (cidMap : List (Option Nat))
    (acc : List (FuncRec × List (List (Nat × Int))) × List FuncRec)
    (f : FuncRec) :
    List (FuncRec × List (List (Nat × Int))) × List FuncRec :=
  if funcResolves p cidMap f then
    (acc.1 ++ [(f, f.callSites.map fun cs => translateEntries cidMap cs.entries)],
     acc.2)
  else
    (acc.1, acc.2 ++ [f])

/-- Everything a feedback load applied to the live program, plus the scratch
translation table and the deferred list. -/
structure ApplyLog where
  cidMap : List (Option Nat)
  fieldsApplied : List (Nat × String)
  cachesApplied : List (FuncRec × List (List (Nat × Int)))
  deferred : List FuncRec
deriving DecidableEq, Repr

/-- The log of a load that applied nothing. -/
def ApplyLog.empty : ApplyLog := ⟨[], [], [], []⟩

/-- Modelled from the spec: `TypeFeedbackLoader::LoadFeedback` (body not in
the snapshot).  Checks the header (fatal error returned immediately, nothing
applied), builds the class-id translation table, loads fields, then runs
`LoadFunction` for every function record; returns null together with the
apply log on success. -/
def loadFeedback (p : FeedbackProgram) (s : FeedbackStream) :
    Option FeedbackErr × ApplyLog :=
  match checkHeader s with
  | some e => (some e, ApplyLog.empty)
  | none =>
    let cidMap := loadClasses p s.classes
    let funcsOut := s.funcs.foldl (loadFunctionStep p cidMap) ([], [])
    (none, ⟨cidMap, loadFields p cidMap s.fields, funcsOut.1, funcsOut.2⟩)

/-! ## Code breakpoints (runtime/vm/debugger_arm.cc)

`CodeBreakpoint::PatchCode` / `RestoreCode` / `OrigStubAddress`, translated
from the source.  The external `CodePatcher` get/patch of the static call
target at a pc is modelled as reading/updating a map from pc to target; the
external `StubCode` entry points are the three stub addresses. -/

/-- The `RawPcDescriptors` kinds `PatchCode` switches on; `other` stands for
every kind that hits the `UNREACHABLE()` default. -/
inductive PcKind where
  | icCall
  | unoptStaticCall
  | closureCall
  | runtimeCall
  | other
deriving DecidableEq, Repr

/-- The stub entry points `PatchCode` selects among. -/
structure StubCode where
  icCallBreakpointEntryPoint : Nat
  closureCallBreakpointEntryPoint : Nat
  runtimeCallBreakpointEntryPoint : Nat
deriving DecidableEq, Repr

/-- The fields of `CodeBreakpoint` the two methods touch. -/
structure CodeBreakpoint where
  pc : Nat
  breakpointKind : PcKind
  savedValue : Nat
  isEnabled : Bool
deriving DecidableEq, Repr

/-- `CodeBreakpoint::OrigStubAddress`: returns `saved_value_`. -/
def origStubAddress (bp : CodeBreakpoint) : Nat := bp.savedValue

/-- The stub target `PatchCode`'s switch selects for a kind; `none` is the
`UNREACHABLE()` default. -/
def stubTargetFor (sc : StubCode) : PcKind → Option Nat
  | .icCall => some sc.icCallBreakpointEntryPoint
  | .unoptStaticCall => some sc.icCallBreakpointEntryPoint
  | .closureCall => some sc.closureCallBreakpointEntryPoint
  | .runtimeCall => some sc.runtimeCallBreakpointEntryPoint
  | .other => none

/-- `CodePatcher::PatchStaticCallAt`: update the call target at `pc`. -/
def patchStaticCallAt (mem : Nat → Nat) (pc target : Nat) : Nat → Nat :=
  fun a => if a = pc then target else mem a

/-- `CodeBreakpoint::PatchCode`: asserts `!is_enabled_` (`none` models a
failed assertion or the unreachable default), saves the current static call
target at `pc_` into `saved_value_`, patches the call to the stub selected
by `breakpoint_kind_`, and sets `is_enabled_`. -/
def patchCode (sc : StubCode) (bp : CodeBreakpoint) (mem : Nat → Nat) :
    Option (CodeBreakpoint × (Nat → Nat)) :=
  if bp.isEnabled then none
  else
    match stubTargetFor sc bp.breakpointKind with
    | none => none
    | some stubTarget =>
      some ({ bp with savedValue := mem bp.pc, isEnabled := true },
            patchStaticCallAt mem bp.pc stubTarget)

/-- `CodeBreakpoint::RestoreCode`: asserts `is_enabled_`, patches
`saved_value_` back into the call at `pc_`, and clears `is_enabled_`. -/
def restoreCode (bp : CodeBreakpoint) (mem : Nat → Nat) :
    Option (CodeBreakpoint × (Nat → Nat)) :=
  if bp.isEnabled then
    match bp.breakpointKind with
    | .other => none
    | _ =>
      some ({ bp with isEnabled := false },
            patchStaticCallAt mem bp.pc bp.savedValue)
  else none

/-! ## Helper lemmas -/

/-- The textual encoding of one trace record. -/
def encodeRecord (r : TraceRecord) : TraceLine := [r.uri, r.cls, r.func]

lemma foldl_traceVisit (rs : List TraceRecord) (acc : List TraceLine) :
    rs.foldl traceVisit acc = acc ++ rs.map encodeRecord := by
  induction rs generalizing acc with
  | nil => simp
  | cons r rs ih => simp [traceVisit, ih, encodeRecord]

lemma saveTrace_eq_map (rs : List TraceRecord) :
    saveTrace rs = rs.map encodeRecord := by
  simp [saveTrace, foldl_traceVisit]

/-- The first compilation error a trace replay over `rs` encounters. -/
def firstCompileError (p : TraceProgram) (rs : List TraceRecord) :
    Option TraceErr :=
  ((rs.filter fun r => p.resolves r && !p.compileOk r).head?).map .compileError

lemma compileTraceAux_encoded (p : TraceProgram) (rs : List TraceRecord)
    (err : Option TraceErr) (acc : List TraceRecord) :
    compileTraceAux p (rs.map encodeRecord) err acc =
      (err.orElse fun _ => firstCompileError p rs,
       acc ++ rs.filter p.resolves) := by
  induction rs generalizing err acc with
  | nil => cases err <;> simp [compileTraceAux, Option.orElse, firstCompileError]
  | cons r rs ih =>
    simp only [List.map_cons, compileTraceAux, encodeRecord, parseLine]
    rw [ih]
    by_cases hres : p.resolves r
    · by_cases hok : p.compileOk r
      · cases err <;>
          simp [compileTriple, hres, hok, Option.orElse, firstCompileError,
            List.filter_cons]
      · cases err <;>
          simp [compileTriple, hres, hok, Option.orElse, firstCompileError,
            List.filter_cons]
    · cases err <;>
        simp [compileTriple, hres, Option.orElse, firstCompileError,
          List.filter_cons]

lemma compileTrace_encoded (p : TraceProgram) (rs : List TraceRecord) :
    compileTrace p (rs.map encodeRecord) =
      (firstCompileError p rs, rs.filter p.resolves) := by
  simp [compileTrace, compileTraceAux_encoded, Option.orElse]

/-! ## Claim theorems: compilation trace -/

/-- C3: saving a trace from a program whose compiled functions F1..Fn are
visited in that order appends one record per visit (no merging or
deduplication), and loading the result into an identical program — one where
every Fi resolves and compiles successfully — re-triggers compilation of
exactly F1..Fn in exactly that order, with a null result. -/
theorem compileTrace_saveTrace_roundtrip (p : TraceProgram)
    (funcs : List TraceRecord)
    (hres : ∀ r ∈ funcs, p.resolves r = true)
    (hok : ∀ r ∈ funcs, p.compileOk r = true) :
    compileTrace p (saveTrace funcs) = (none, funcs) := by
  rw [saveTrace_eq_map, compileTrace_encoded]
  have h1 : funcs.filter p.resolves = funcs :=
    List.filter_eq_self.mpr (by intro a ha; simp [hres a ha])
  have h2 : (funcs.filter fun r => p.resolves r && !p.compileOk r) = [] := by
    rw [List.filter_eq_nil_iff]
    intro a ha
    simp [hres a ha, hok a ha]
  simp [firstCompileError, h1, h2]

/-- Witness for C3 at a concrete two-function program. -/
theorem compileTrace_saveTrace_roundtrip_witness :
    compileTrace
      ⟨fun r => r == ⟨"u", "C", "f"⟩ || r == ⟨"u", "C", "g"⟩, fun _ => true⟩
      (saveTrace [⟨"u", "C", "f"⟩, ⟨"u", "C", "g"⟩]) =
      (none, [⟨"u", "C", "f"⟩, ⟨"u", "C", "g"⟩]) :=
  compileTrace_saveTrace_roundtrip _ _ (by decide) (by decide)

/-- C5: on a buffer of well-formed records, CompileTrace returns the first
compilation error encountered (null if no resolved record fails to compile)
while still attempting every remaining record: the set of functions whose
compilation is triggered is all resolving records, unaffected by earlier
failures. -/
theorem compileTrace_returns_first_error_and_continues (p : TraceProgram)
    (rs : List TraceRecord) :
    compileTrace p (rs.map encodeRecord) =
      (((rs.filter fun r => p.resolves r && !p.compileOk r).head?).map
         TraceErr.compileError,
       rs.filter p.resolves) := by
  rw [compileTrace_encoded]; rfl

/-- C6: a well-formed record whose library, class, or function name does not
resolve is silently skipped — it contributes no error and no compilation —
and the result is null when every other resolved record compiles. -/
theorem compileTrace_skips_unresolved (p : TraceProgram)
    (pre post : List TraceRecord) (r : TraceRecord)
    (hr : p.resolves r = false)
    (hok : ∀ s ∈ pre ++ post, p.resolves s = true → p.compileOk s = true) :
    compileTrace p ((pre ++ r :: post).map encodeRecord) =
      (none, (pre ++ post).filter p.resolves) := by
  rw [compileTrace_encoded]
  have h2 : ((pre ++ r :: post).filter fun s => p.resolves s && !p.compileOk s)
      = [] := by
    rw [List.filter_eq_nil_iff]
    intro a ha
    rw [List.mem_append, List.mem_cons] at ha
    rcases ha with h | h | h
    · have := hok a (List.mem_append_left _ h)
      by_cases hres : p.resolves a <;> simp [hres, this]
    · subst h; simp [hr]
    · have := hok a (List.mem_append_right _ h)
      by_cases hres : p.resolves a <;> simp [hres, this]
  simp [firstCompileError, h2, List.filter_append, List.filter_cons, hr]

/-- Witness for C6: a record for class "D" does not resolve in a program that
only has class "C"; the load skips it and returns null. -/
theorem compileTrace_skips_unresolved_witness :
    compileTrace
      ⟨fun r => r.cls == "C", fun _ => true⟩
      ((([⟨"u", "C", "f"⟩] : List TraceRecord) ++ (⟨"u", "D", "g"⟩ : TraceRecord) ::
          [⟨"u", "C", "h"⟩]).map encodeRecord) =
      (none, (([⟨"u", "C", "f"⟩] : List TraceRecord) ++
          ([⟨"u", "C", "h"⟩] : List TraceRecord)).filter
        fun r => r.cls == "C") :=
  compileTrace_skips_unresolved _ _ _ _ (by decide) (by decide)

/-- C9: after any sequence of Visit calls, StealBuffer hands the accumulated
text buffer to the caller as a (buffer, length) pair: the buffer holds
exactly the visited records in order and the reported length is the
buffer's length. -/
theorem stealBuffer_hands_buffer_and_length (funcs : List TraceRecord) :
    stealBuffer (saveTrace funcs) =
      (funcs.map encodeRecord, (funcs.map encodeRecord).length) := by
  simp [stealBuffer, saveTrace_eq_map]

/-! ## Helper lemmas: type feedback -/

lemma foldl_loadFunctionStep (p : FeedbackProgram) (cidMap : List (Option Nat))
    (fs : List FuncRec) (a : List (FuncRec × List (List (Nat × Int))))
    (b : List FuncRec) :
    fs.foldl (loadFunctionStep p cidMap) (a, b) =
      (a ++ (fs.filter (funcResolves p cidMap)).map
          (fun f => (f, f.callSites.map fun cs =>
            translateEntries cidMap cs.entries)),
       b ++ fs.filter fun f => !funcResolves p cidMap f) := by
  induction fs generalizing a b with
  | nil => simp
  | cons f fs ih =>
    by_cases h : funcResolves p cidMap f <;>
      simp [loadFunctionStep, h, ih, List.filter_cons]

lemma loadFeedback_ok (p : FeedbackProgram) (s : FeedbackStream)
    (hv : s.version = kFeedbackVersion) :
    loadFeedback p s =
      (none,
       ⟨loadClasses p s.classes,
        loadFields p (loadClasses p s.classes) s.fields,
        (s.funcs.filter (funcResolves p (loadClasses p s.classes))).map
          (fun f => (f, f.callSites.map fun cs =>
            translateEntries (loadClasses p s.classes) cs.entries)),
        s.funcs.filter fun f =>
          !funcResolves p (loadClasses p s.classes) f⟩) := by
  simp [loadFeedback, checkHeader, hv, foldl_loadFunctionStep]

lemma translateCid_loadClasses (p : FeedbackProgram) (classes : List ClassRec)
    (tr : Nat → Nat)
    (hres : ∀ i, (h : i < classes.length) →
      p.resolveClass (classes[i]).uri (classes[i]).name = some (tr i))
    (cid : Nat) (hlt : cid < classes.length) :
    translateCid (loadClasses p classes) cid = some (tr cid) := by
  simp [translateCid, loadClasses, List.getD_eq_getElem?_getD,
    List.getElem?_map, List.getElem?_eq_getElem hlt, hres cid hlt]

lemma translateEntries_eq_map (cidMap : List (Option Nat)) (tr : Nat → Nat)
    (entries : List HistEntry)
    (h : ∀ e ∈ entries, translateCid cidMap e.classId = some (tr e.classId)) :
    translateEntries cidMap entries =
      entries.map fun e => (tr e.classId, e.count) := by
  induction entries with
  | nil => rfl
  | cons e es ih =>
    have he := h e (by simp)
    have := ih fun x hx => h x (by simp [hx])
    simp only [translateEntries, List.filterMap_cons] at this ⊢
    simp [he, this]

/-! ## Claim theorems: type feedback -/

/-- C1: when every class the stream's table names resolves in the current
program — the class at stream-local id `i` resolving to current id `tr i` —
LoadFeedback returns null and applies, for every resolved function record,
an inline cache in which every call-site histogram entry has its class id
translated through the table and its hit count preserved. -/
theorem loadFeedback_translates_class_ids (p : FeedbackProgram)
    (s : FeedbackStream) (tr : Nat → Nat)
    (hv : s.version = kFeedbackVersion)
    (hres : ∀ i, (h : i < s.classes.length) →
      p.resolveClass (s.classes[i]).uri (s.classes[i]).name = some (tr i))
    (f : FuncRec) (hf : f ∈ s.funcs)
    (hfr : funcResolves p (loadClasses p s.classes) f = true)
    (hrange : ∀ cs ∈ f.callSites, ∀ e ∈ cs.entries,
      e.classId < s.classes.length) :
    (loadFeedback p s).1 = none ∧
    (f, f.callSites.map fun cs =>
        cs.entries.map fun e => (tr e.classId, e.count))
      ∈ (loadFeedback p s).2.cachesApplied := by
  rw [loadFeedback_ok p s hv]
  refine ⟨rfl, ?_⟩
  have hmem : f ∈ s.funcs.filter (funcResolves p (loadClasses p s.classes)) :=
    List.mem_filter.mpr ⟨hf, hfr⟩
  have hEq : (f.callSites.map fun cs =>
        translateEntries (loadClasses p s.classes) cs.entries) =
      f.callSites.map fun cs =>
        cs.entries.map fun e => (tr e.classId, e.count) := by
    apply List.map_congr_left
    intro cs hcs
    exact translateEntries_eq_map _ tr _ fun e he =>
      translateCid_loadClasses p s.classes tr hres e.classId (hrange cs hcs e he)
  rw [← hEq]
  exact List.mem_map_of_mem _ hmem

/-- The claim's example program: "Foo" resolves to current class id 7,
"Bar" to 2, and every function lookup succeeds. -/
def exampleProgram : FeedbackProgram :=
  ⟨fun _ n => if n == "Foo" then some 7 else if n == "Bar" then some 2 else none,
   fun _ _ _ _ => true, fun _ _ => true⟩

/-- The claim's example stream: class table {(A,Foo)→id 0, (A,Bar)→id 1} and
one function whose single call site has histogram {(0,5),(1,3)}. -/
def exampleStream : FeedbackStream :=
  ⟨1, [⟨"A", "Foo"⟩, ⟨"A", "Bar"⟩], [],
   [⟨0, 3, 7, "m", [⟨0, "t", [⟨0, 5⟩, ⟨1, 3⟩]⟩]⟩]⟩

/-- Witness for C1: the spec's example produces the inline cache
{(7,5),(2,3)}. -/
theorem loadFeedback_translates_class_ids_witness :
    (loadFeedback exampleProgram exampleStream).1 = none ∧
    ((⟨0, 3, 7, "m", [⟨0, "t", [⟨0, 5⟩, ⟨1, 3⟩]⟩]⟩ : FuncRec),
        [[((7 : Nat), (5 : Int)), (2, 3)]])
      ∈ (loadFeedback exampleProgram exampleStream).2.cachesApplied :=
  loadFeedback_translates_class_ids exampleProgram exampleStream
    (fun i => if i == 0 then 7 else 2) rfl (by decide)
    ⟨0, 3, 7, "m", [⟨0, "t", [⟨0, 5⟩, ⟨1, 3⟩]⟩]⟩ (by decide) (by decide)
    (by decide)

/-- C2: a stream whose version field does not match the supported version
makes LoadFeedback return a fatal error straight from the header check, with
nothing applied: no translation table, zero fields, zero inline caches, and
an empty deferred list. -/
theorem loadFeedback_version_mismatch_fatal (p : FeedbackProgram)
    (s : FeedbackStream) (h : s.version ≠ kFeedbackVersion) :
    loadFeedback p s = (some .badVersion, ApplyLog.empty) := by
  simp [loadFeedback, checkHeader, h]

/-- A program in which no class, function, or field resolves. -/
def emptyProgram : FeedbackProgram :=
  ⟨fun _ _ => none, fun _ _ _ _ => false, fun _ _ => false⟩

/-- Witness for C2: version 2 against supported version 1, on a stream that
does carry classes, fields, and a function record. -/
theorem loadFeedback_version_mismatch_fatal_witness :
    loadFeedback emptyProgram
        ⟨2, [⟨"A", "Foo"⟩], [⟨0, "x"⟩], [⟨0, 3, 7, "m", []⟩]⟩ =
      (some .badVersion, ApplyLog.empty) :=
  loadFeedback_version_mismatch_fatal _ _ (by decide)

/-- C4: on a version-matching stream, LoadFeedback returns null, its
deferred list is exactly the function records that do not resolve (each
occurrence appended exactly once, in stream order), and no call-site data of
a deferred record is applied to any inline cache. -/
theorem loadFeedback_deferred_complete (p : FeedbackProgram)
    (s : FeedbackStream) (hv : s.version = kFeedbackVersion) :
    (loadFeedback p s).1 = none ∧
    (loadFeedback p s).2.deferred =
      s.funcs.filter
        (fun f => !funcResolves p (loadClasses p s.classes) f) ∧
    (∀ f ∈ (loadFeedback p s).2.deferred,
      ∀ c ∈ (loadFeedback p s).2.cachesApplied, c.1 ≠ f) := by
  rw [loadFeedback_ok p s hv]
  refine ⟨rfl, rfl, ?_⟩
  intro f hf c hc
  rcases List.mem_map.mp hc with ⟨g, hg, rfl⟩
  have h1 : funcResolves p (loadClasses p s.classes) g = true :=
    (List.mem_filter.mp hg).2
  have h2 : (!funcResolves p (loadClasses p s.classes) f) = true :=
    (List.mem_filter.mp hf).2
  intro hEq
  have hEq' : g = f := hEq
  rw [← hEq', h1] at h2
  simp at h2

/-- Witness for C4: a program where nothing resolves defers the stream's one
function record and applies no cache. -/
theorem loadFeedback_deferred_complete_witness :
    (loadFeedback emptyProgram exampleStream).1 = none ∧
    (loadFeedback emptyProgram exampleStream).2.deferred =
      exampleStream.funcs.filter
        (fun f => !funcResolves emptyProgram
          (loadClasses emptyProgram exampleStream.classes) f) ∧
    (∀ f ∈ (loadFeedback emptyProgram exampleStream).2.deferred,
      ∀ c ∈ (loadFeedback emptyProgram exampleStream).2.cachesApplied,
        c.1 ≠ f) :=
  loadFeedback_deferred_complete emptyProgram exampleStream (by decide)

/-! ## Claim theorems: the binary integer / string encoding -/

lemma readInt_int32Bytes (v : Int) (rest : List Nat)
    (h1 : -2147483648 ≤ v) (h2 : v < 2147483648) :
    readInt (int32Bytes v ++ rest) = some (v, rest) := by
  simp only [int32Bytes, List.cons_append, List.nil_append, readInt,
    Option.some.injEq, Prod.mk.injEq]
  refine ⟨?_, trivial⟩
  split <;> omega

lemma readBytes_append (s rest : List Nat) :
    readBytes s.length (s ++ rest) = some (s, rest) := by
  induction s with
  | nil => rfl
  | cons b s ih => simp [readBytes, ih]

/-- C7: the feedback format moves integers as fixed-width 32-bit values with
one consistent byte order and strings as a length prefix followed by raw
bytes: reading immediately after writing returns the written value, for
every integer representable in 32 bits and every string whose length is. -/
theorem feedback_format_roundtrip (v : Int) (s rest : List Nat)
    (h1 : -2147483648 ≤ v) (h2 : v < 2147483648)
    (hs : (s.length : Int) < 2147483648) :
    readInt (writeInt [] v ++ rest) = some (v, rest) ∧
    readString (writeString [] s ++ rest) = some (s, rest) := by
  constructor
  · simpa [writeInt] using readInt_int32Bytes v rest h1 h2
  · have hlen := readInt_int32Bytes (s.length : Int) (s ++ rest)
      (by omega) hs
    simp [writeString, writeInt, readString, List.append_assoc, hlen,
      readBytes_append]

/-- Witness for C7 at v = -5 and the two-byte string [65, 66]. -/
theorem feedback_format_roundtrip_witness :
    readInt (writeInt [] (-5) ++ [9]) = some (-5, [9]) ∧
    readString (writeString [] [65, 66] ++ [9]) = some ([65, 66], [9]) :=
  feedback_format_roundtrip (-5) [65, 66] [9] (by decide) (by decide)
    (by decide)

/-- C8: WriteInt silently truncates: a value outside the int32 range is
written as its reduction modulo 2^32 reinterpreted as signed 32-bit, so the
subsequent ReadInt returns `toInt32 v`, which differs from the original
value — no error and no bounds check. -/
theorem writeInt_truncates_out_of_range (v : Int)
    (h : v < -2147483648 ∨ 2147483648 ≤ v) :
    readInt (writeInt [] v) = some (toInt32 v, []) ∧ toInt32 v ≠ v := by
  constructor
  · simp only [writeInt, int32Bytes, toInt32, List.cons_append,
      List.nil_append, readInt, Option.some.injEq, Prod.mk.injEq]
    refine ⟨?_, trivial⟩
    split <;> split <;> omega
  · simp only [toInt32]
    split <;> omega

/-- Witness for C8: writing 2^31 reads back as -2^31. -/
theorem writeInt_truncates_out_of_range_witness :
    readInt (writeInt [] 2147483648) = some (toInt32 2147483648, []) ∧
      toInt32 2147483648 ≠ 2147483648 :=
  writeInt_truncates_out_of_range 2147483648 (by decide)

/-! ## Claim theorem: code breakpoints -/

/-- C10: on a disabled breakpoint whose kind the switch handles, PatchCode
saves the current static call target at pc into saved_value_, patches the
call to the stub selected for the kind, and enables the breakpoint;
OrigStubAddress then returns the original target; a subsequent RestoreCode
patches the saved target back and disables the breakpoint, leaving every
call target as it originally was; and the assertions force the two calls to
strictly alternate: RestoreCode on a disabled breakpoint and PatchCode on an
enabled one both fail their assertion. -/
theorem patchCode_restoreCode_roundtrip (sc : StubCode) (bp : CodeBreakpoint)
    (mem : Nat → Nat) (stubTarget : Nat)
    (hdis : bp.isEnabled = false)
    (hstub : stubTargetFor sc bp.breakpointKind = some stubTarget) :
    restoreCode bp mem = none ∧
    ∃ bp' mem',
      patchCode sc bp mem = some (bp', mem') ∧
      bp'.isEnabled = true ∧
      origStubAddress bp' = mem bp.pc ∧
      mem' bp.pc = stubTarget ∧
      (∀ a, a ≠ bp.pc → mem' a = mem a) ∧
      patchCode sc bp' mem' = none ∧
      ∃ bp'' mem'',
        restoreCode bp' mem' = some (bp'', mem'') ∧
        bp''.isEnabled = false ∧
        ∀ a, mem'' a = mem a := by
  obtain ⟨pc, kind, saved, enabled⟩ := bp
  dsimp only at hdis hstub ⊢
  subst hdis
  cases kind
  case other => simp [stubTargetFor] at hstub
  all_goals
    simp only [stubTargetFor, Option.some.injEq] at hstub
    subst hstub
    refine ⟨rfl, ⟨pc, _, mem pc, true⟩, patchStaticCallAt mem pc _, rfl, rfl,
      rfl, by simp [patchStaticCallAt], ?_, rfl,
      ⟨pc, _, mem pc, false⟩,
      patchStaticCallAt (patchStaticCallAt mem pc _) pc (mem pc), rfl, rfl, ?_⟩
    · intro a ha; simp [patchStaticCallAt, ha]
    · intro a; by_cases h : a = pc <;> simp [patchStaticCallAt, h]

/-- Witness for C10: an ic-call breakpoint at pc 4 in code whose every call
target is 42, against stubs (100, 300, 500). -/
theorem patchCode_restoreCode_roundtrip_witness :
    restoreCode ⟨4, PcKind.icCall, 0, false⟩ (fun _ => 42) = none ∧
    ∃ bp' mem',
      patchCode ⟨100, 300, 500⟩ ⟨4, PcKind.icCall, 0, false⟩ (fun _ => 42) =
        some (bp', mem') ∧
      bp'.isEnabled = true ∧
      origStubAddress bp' = 42 ∧
      mem' 4 = 100 ∧
      (∀ a, a ≠ 4 → mem' a = 42) ∧
      patchCode ⟨100, 300, 500⟩ bp' mem' = none ∧
      ∃ bp'' mem'',
        restoreCode bp' mem' = some (bp'', mem'') ∧
        bp''.isEnabled = false ∧
        ∀ a, mem'' a = 42 :=
  patchCode_restoreCode_roundtrip ⟨100, 300, 500⟩ ⟨4, PcKind.icCall, 0, false⟩
    (fun _ => 42) 100 rfl rfl

end DartVM
